import Mathlib

/-!
Verification of the Solar-Storage-Co-Optimization scenario pipeline.

This development shallowly embeds the pure computational core of the
repository in Lean 4:

* `compute_pv_sizing_limits`  (src/microgrid/core/pv_sizing_limits.py)
* the origin cost policy and cost annualization helpers
  (src/microgrid/core/model_helpers.py)
* the parameter-merge and insolation-multiplier normalization logic of the
  sweep driver (src/microgrid/scripts/run_sweep.py)
* the grid-sell fixing and switch-count logic of the single-run driver
  (src/microgrid/scripts/run_single_loop.py)
* the Summary-sheet accumulation of the report writer
  (src/microgrid/core/excel_utils.py)

Python float arithmetic is modelled over the exact rationals `ℚ`.  Python
exceptions (`ZeroDivisionError` raised by `/` on plain floats, `ValueError`
raised explicitly) are modelled with `Except String`.  Note that pandas and
numpy scalar division by zero does NOT raise: it silently yields a
non-finite value, so the corresponding embedded code performs a total `ℚ`
division (whose value at a zero denominator is irrelevant to the theorems
stated about it) and does not produce an error.
-/

namespace SolarStorage

/-- A scalar value as it appears in a pandas row or an override dict:
a float NaN, a (finite) number, or a string. -/
inductive PyVal where
  | vnan : PyVal
  | vnum : ℚ → PyVal
  | vstr : String → PyVal
deriving DecidableEq, Repr

/-! ### Sizing limit calculator (pv_sizing_limits.py) -/

/-- One row of the hourly consumption/insolation table. -/
structure HourRow where
  consumption : ℚ
  insolation : ℚ
deriving DecidableEq, Repr

/-- One row of the PV technology table (the columns used by the sizing
limit computation). -/
structure PvTableRow where
  PV_types : String
  STC_eff : ℚ
deriving DecidableEq, Repr

/-- `pandas.Series.max` on a non-empty series (the empty case is not
exercised by the source on its year-long datasets). -/
def seriesMax : List ℚ → ℚ
  | [] => 0
  | x :: xs => xs.foldl max x

/-- The result record returned by `compute_pv_sizing_limits`. -/
structure SizingResult where
  selectedModule : String
  moduleEfficiency : ℚ
  annualConsumptionKwh : ℚ
  peakDemandKw : ℚ
  estimatedServiceCapacityKw : ℚ
  specificYield : ℚ
  productionCapKwh : ℚ
  maxSizeByProductionKw : ℚ
  maxSizeByServiceKw : ℚ
  finalAllowedKw : ℚ
  limitingFactor : String
deriving DecidableEq, Repr

/-- `compute_pv_sizing_limits` from `pv_sizing_limits.py`.  The CSV loads
are replaced by the already-parsed row lists; the module lookup and its
`ValueError` are kept.  The division `max_production_kwh / specific_yield`
is a numpy float division, which never raises (it yields a non-finite
float when `specific_yield == 0`); it is embedded as total `ℚ` division. -/
def compute_pv_sizing_limits (df : List HourRow) (pv_table : List PvTableRow)
    (selected_module : String) (safety_margin_percent : ℚ) :
    Except String SizingResult :=
  match pv_table.find? (fun r => r.PV_types == selected_module) with
  | none => .error ("Selected module not found in PV table.")
  | some module_row =>
    let module_efficiency := module_row.STC_eff
    let total_annual_kwh := (df.map (·.consumption)).sum
    let max_production_kwh := 115/100 * total_annual_kwh
    let specific_yield := (df.map (fun r => r.insolation * module_efficiency / 1000)).sum
    let max_system_kw_by_production := max_production_kwh / specific_yield
    let peak_kw := seriesMax (df.map (·.consumption))
    let estimated_service_capacity_kw := peak_kw * (1 + safety_margin_percent / 100)
    let max_system_kw_by_service := 90/100 * estimated_service_capacity_kw
    let final_allowed_system_kw := min max_system_kw_by_production max_system_kw_by_service
    let limiting_factor :=
      if final_allowed_system_kw == max_system_kw_by_production then
        "production limit (115%)"
      else
        "service capacity (90%)"
    .ok {
      selectedModule := selected_module
      moduleEfficiency := module_efficiency
      annualConsumptionKwh := total_annual_kwh
      peakDemandKw := peak_kw
      estimatedServiceCapacityKw := estimated_service_capacity_kw
      specificYield := specific_yield
      productionCapKwh := max_production_kwh
      maxSizeByProductionKw := max_system_kw_by_production
      maxSizeByServiceKw := max_system_kw_by_service
      finalAllowedKw := final_allowed_system_kw
      limitingFactor := limiting_factor }

/-- Whether an `Except` result is an error. -/
def exceptIsError : Except String α → Bool
  | .error _ => true
  | .ok _ => false

/-! ### Python scalar helpers -/

/-- Characters stripped by Python `str.strip()`. -/
def isPySpace (c : Char) : Bool :=
  c = ' ' || c = '\t' || c = '\n' || c = '\r' || c = '\x0b' || c = '\x0c'

/-- Python `str.strip()`. -/
def pyStrip (s : String) : String :=
  ⟨((s.data.dropWhile isPySpace).reverse.dropWhile isPySpace).reverse⟩

/-- Value of a list of decimal digit characters. -/
def digitsVal (cs : List Char) : ℕ :=
  cs.foldl (fun a c => a * 10 + (c.toNat - 48)) 0

/-- Python `int(str)` on a stripped string: optional sign followed by
digits (underscored literals are out of scope).  `none` models the
`ValueError` raised on anything else. -/
def pyStrToInt? (s : String) : Option ℤ :=
  match (pyStrip s).data with
  | [] => none
  | '-' :: rest =>
    if !rest.isEmpty && rest.all Char.isDigit then some (-(digitsVal rest : ℤ)) else none
  | '+' :: rest =>
    if !rest.isEmpty && rest.all Char.isDigit then some ((digitsVal rest : ℤ)) else none
  | cs =>
    if cs.all Char.isDigit then some ((digitsVal cs : ℤ)) else none

/-- Python `int(float)`: truncation toward zero. -/
def pyIntTrunc (q : ℚ) : ℤ :=
  if 0 ≤ q then ⌊q⌋ else ⌈q⌉

/-- Python `float(str)`: sign, integer part, optional fractional part,
optional exponent, surrounded by optional whitespace.  `none` models the
`ValueError` raised on anything else.  The special words `nan`/`inf`
(whose values are not finite rationals) and underscored literals are
outside the embedded value domain. -/
def parseFloat? (s : String) : Option ℚ :=
  let cs := (pyStrip s).data
  let signAndRest : ℚ × List Char :=
    match cs with
    | '-' :: t => (-1, t)
    | '+' :: t => (1, t)
    | t => (1, t)
  let sign := signAndRest.1
  let cs0 := signAndRest.2
  let ipart := cs0.takeWhile Char.isDigit
  let cs1 := cs0.dropWhile Char.isDigit
  let fracAndRest : List Char × List Char :=
    match cs1 with
    | '.' :: t => (t.takeWhile Char.isDigit, t.dropWhile Char.isDigit)
    | t => ([], t)
  let fpart := fracAndRest.1
  let cs2 := fracAndRest.2
  let hadDot : Bool := match cs1 with | '.' :: _ => true | _ => false
  if ipart.isEmpty && (!hadDot || fpart.isEmpty) then none
  else
    let mantissa : ℚ :=
      sign * ((digitsVal ipart : ℚ) + (digitsVal fpart : ℚ) / (10 : ℚ) ^ fpart.length)
    match cs2 with
    | [] => some mantissa
    | e :: t =>
      if e = 'e' || e = 'E' then
        let expSignAndRest : ℤ × List Char :=
          match t with
          | '-' :: t2 => (-1, t2)
          | '+' :: t2 => (1, t2)
          | t2 => (1, t2)
        let edigits := expSignAndRest.2
        if !edigits.isEmpty && edigits.all Char.isDigit then
          some (mantissa * (10 : ℚ) ^ (expSignAndRest.1 * (digitsVal edigits : ℤ)))
        else none
      else none

/-- Python `round(x, 2)` (round-half-to-even), idealized over exact
rationals. -/
def roundHalfEven (q : ℚ) : ℤ :=
  let f := ⌊q⌋
  let r := q - f
  if r < 1/2 then f
  else if 1/2 < r then f + 1
  else if f % 2 = 0 then f else f + 1

/-- Round to two decimal places, as `round(x, 2)` at the function
boundaries of the cost annualizer. -/
def pyRound2 (q : ℚ) : ℚ := (roundHalfEven (q * 100) : ℚ) / 100

/-- Python float division: raises `ZeroDivisionError` on a zero
denominator. -/
def pyDiv (a b : ℚ) : Except String ℚ :=
  if b = 0 then .error "ZeroDivisionError: float division by zero" else .ok (a / b)

/-! ### Cost helpers (model_helpers.py) -/

/-- `calculate_crf` from `model_helpers.py`:
`(rate * (1 + rate) ** lifetime) / ((1 + rate) ** lifetime - 1)` with
Python float division semantics (a zero denominator raises). -/
def calculate_crf (rate : ℚ) (lifetime : ℕ) : Except String ℚ :=
  pyDiv (rate * (1 + rate) ^ lifetime) ((1 + rate) ^ lifetime - 1)

/-- Python `range(start, stop, step)` for a positive `step` (a zero step
raises `ValueError` in Python and is never passed by the source's
callers). -/
def pyRangeStep (start stop step : ℕ) : List ℕ :=
  (List.range stop).filter (fun t => start ≤ t && (t - start) % step = 0)

/-- `calculate_replacement_years` from `model_helpers.py`:
`[t for t in range(lifetime, project_life, lifetime)]`. -/
def calculate_replacement_years (lifetime project_life : ℕ) : List ℕ :=
  pyRangeStep lifetime project_life lifetime

/-- `base + sum(frac * base / (1 + rate) ** t for t in years)`, evaluating
the divisions left to right with Python float-division semantics. -/
def npvWithReplacements (base frac rate : ℚ) (years : List ℕ) : Except String ℚ := do
  let s ← years.foldlM (fun acc t => do
      let d ← pyDiv (frac * base) ((1 + rate) ^ t)
      pure (acc + d)) (0 : ℚ)
  pure (base + s)

/-- `annualized_battery_cost` from `model_helpers.py` (the unused
`itc_pv` keyword parameter is dropped). -/
def annualized_battery_cost (base_cost_e base_cost_p B_O_M : ℚ)
    (energy_life power_life project_life : ℕ) (discount_rate : ℚ)
    (replacement_fraction_e replacement_fraction_p itc_bat : ℚ) :
    Except String (ℚ × ℚ) := do
  let npv_e ← npvWithReplacements base_cost_e replacement_fraction_e discount_rate
      (calculate_replacement_years energy_life project_life)
  let npv_p ← npvWithReplacements base_cost_p replacement_fraction_p discount_rate
      (calculate_replacement_years power_life project_life)
  let crf ← calculate_crf discount_rate project_life
  pure (pyRound2 (npv_e * crf * (1 - itc_bat) + B_O_M),
        pyRound2 (npv_p * crf * (1 - itc_bat)))

/-- `annualized_pv_cost` from `model_helpers.py`. -/
def annualized_pv_cost (base_cost o_m : ℚ) (project_life : ℕ)
    (discount_rate itc_pv : ℚ) : Except String ℚ := do
  let crf ← calculate_crf discount_rate project_life
  pure (pyRound2 (base_cost * (1 - itc_pv) * crf + o_m))

/-! ### Origin cost policy (model_helpers.py) -/

/-- Split a character list on `;`. -/
def splitOnSemi : List Char → List (List Char)
  | [] => [[]]
  | c :: cs =>
    let r := splitOnSemi cs
    if c = ';' then [] :: r
    else
      match r with
      | [] => [[c]]
      | h :: t => (c :: h) :: t

/-- `_parse_list` from `model_helpers.py`: `None`/NaN gives the empty
set; otherwise split on `;`, strip each piece, and drop empties.  The
origin-list override columns are strings, so the input is modelled as an
optional string. -/
def parse_list (val : Option String) : List String :=
  match val with
  | none => []
  | some s => ((splitOnSemi s.data).map (fun cs => pyStrip ⟨cs⟩)).filter (fun t => t ≠ "")

/-- The origin-policy override fields read by the two
`effective_*_inputs_by_origin` helpers. -/
structure OriginOverrides where
  use_origin_policy : Option PyVal
  pv_us_list : Option String
  pv_cn_list : Option String
  cn_pv_discount_mult : Option ℚ
  bat_us_list : Option String
  bat_cn_list : Option String
  cn_bat_discount_mult_e : Option ℚ
  cn_bat_discount_mult_p : Option ℚ
deriving Repr

/-- `bool(int(overrides.get("use_origin_policy", 0)))` with the
surrounding `try/except` falling back to `False`. -/
def originEnabled (v : Option PyVal) : Bool :=
  match v with
  | none => false
  | some .vnan => false
  | some (.vnum q) => pyIntTrunc q != 0
  | some (.vstr s) =>
    match pyStrToInt? s with
    | some n => n != 0
    | none => false

/-- `float(overrides.get(key, 1.0) or 1.0)`: an absent value and the
falsy value `0.0` both give `1.0`. -/
def orDefault1 (v : Option ℚ) : ℚ :=
  match v with
  | none => 1
  | some q => if q = 0 then 1 else q

/-- The PV-table columns used by the origin policy. -/
structure PvRow where
  PV_types : String
  pv_cost : ℚ
deriving Repr

/-- The battery-table columns used by the origin policy. -/
structure BatRow where
  BATTERY_TYPES : String
  B_cost_e : ℚ
  B_cost_p : ℚ
deriving Repr

/-- `effective_pv_inputs_by_origin` from `model_helpers.py`. -/
def effective_pv_inputs_by_origin (pv_row : PvRow) (itc_pv : ℚ)
    (overrides : OriginOverrides) : ℚ × ℚ :=
  let base_nominal := pv_row.pv_cost
  let itc_nominal := itc_pv
  let name := pv_row.PV_types
  let use_origin := originEnabled overrides.use_origin_policy
  if !use_origin then (base_nominal, itc_nominal)
  else
    let us_list := parse_list overrides.pv_us_list
    let cn_list := parse_list overrides.pv_cn_list
    let cn_disc := orDefault1 overrides.cn_pv_discount_mult
    if name ∈ cn_list then (base_nominal * cn_disc, 0)
    else if name ∈ us_list then (base_nominal, itc_nominal)
    else (base_nominal, itc_nominal)

/-- `effective_battery_inputs_by_origin` from `model_helpers.py`. -/
def effective_battery_inputs_by_origin (bat_row : BatRow) (itc_bat : ℚ)
    (overrides : OriginOverrides) : ℚ × ℚ × ℚ :=
  let base_e := bat_row.B_cost_e
  let base_p := bat_row.B_cost_p
  let itc_nominal := itc_bat
  let name := bat_row.BATTERY_TYPES
  let use_origin := originEnabled overrides.use_origin_policy
  if !use_origin then (base_e, base_p, itc_nominal)
  else
    let us_list := parse_list overrides.bat_us_list
    let cn_list := parse_list overrides.bat_cn_list
    let cn_disc_e := orDefault1 overrides.cn_bat_discount_mult_e
    let cn_disc_p := orDefault1 overrides.cn_bat_discount_mult_p
    if name ∈ cn_list then (base_e * cn_disc_e, base_p * cn_disc_p, 0)
    else if name ∈ us_list then (base_e, base_p, itc_nominal)
    else (base_e, base_p, itc_nominal)

/-! ### Parameter resolver (run_sweep.py, main loop lines 180-204) -/

/-- A pandas row / override record: an association list from column name
to scalar value.  Keys of a pandas row are unique. -/
abbrev ParamDict := List (String × PyVal)

/-- `{**override_params, **sweep_row.to_dict()}`: a key present in the
sweep row (even with a NaN or falsy value) shadows the override layer;
otherwise the override layer is consulted. -/
def dictMerge (override sweep : ParamDict) (k : String) : Option PyVal :=
  match sweep.lookup k with
  | some v => some v
  | none => override.lookup k

/-- `safe_int` from `model_helpers.py`: NaN gives the default, numbers are
truncated by `int(...)`, strings are parsed by `int(...)` with any failure
giving the default. -/
def safe_int (v : PyVal) (default : ℤ) : ℤ :=
  match v with
  | .vnan => default
  | .vnum q => pyIntTrunc q
  | .vstr s =>
    match pyStrToInt? s with
    | some n => n
    | none => default

/-- Resolution of `offset_price` in `run_sweep.main`: an absent or NaN
merged value is replaced by `0.0`. -/
def resolved_offset_price (merged : String → Option PyVal) : PyVal :=
  match merged "offset_price" with
  | none => .vnum 0
  | some .vnan => .vnum 0
  | some v => v

/-- `int(bool(safe_int(full_params.get("enable_sell", 1))))` from
`run_sweep.main`. -/
def resolved_enable_sell (merged : String → Option PyVal) : ℤ :=
  if safe_int ((merged "enable_sell").getD (.vnum 1)) 0 != 0 then 1 else 0

/-- `int(bool(safe_int(full_params.get("enforce_limit_flag", 0))))` from
`run_sweep.main`. -/
def resolved_enforce_limit (merged : String → Option PyVal) : ℤ :=
  if safe_int ((merged "enforce_limit_flag").getD (.vnum 0)) 0 != 0 then 1 else 0

/-! ### Insolation multiplier normalization (run_sweep.py) -/

/-- The argument domain of `_normalize_insolation_mult`: `None`, a finite
number, or a string. -/
inductive NormInput where
  | nnone : NormInput
  | nnum : ℚ → NormInput
  | nstr : String → NormInput
deriving DecidableEq, Repr

/-- `_normalize_insolation_mult` from `run_sweep.py`.  Strings are
stripped; blank gives `1.0`; a trailing `%` is parsed as a percentage;
any other string is coerced by `float(...)`; coercion failure gives
`1.0`; finally a numeric value in `[-2, 2]` is kept as a direct
multiplier while anything else is interpreted as a percent delta. -/
def normalize_insolation_mult : NormInput → ℚ
  | .nnone => 1
  | .nstr x =>
    let s := pyStrip x
    if s = "" then 1
    else if s.data.getLast? = some '%' then
      match parseFloat? ⟨s.data.dropLast⟩ with
      | some pct => 1 + pct / 100
      | none => 1
    else
      match parseFloat? s with
      | some val => if -2 ≤ val ∧ val ≤ 2 then val else 1 + val / 100
      | none => 1
  | .nnum q => if -2 ≤ q ∧ q ≤ 2 then q else 1 + q / 100

/-- The raw insolation value fed to `_normalize_insolation_mult` by
`run_sweep.main`: an absent, NaN, or blank-string merged value falls back
to the command-line `--insolation-mult` float. -/
def resolved_insolation_raw (merged : String → Option PyVal) (cli : ℚ) : NormInput :=
  match merged "insolation_mult" with
  | none => .nnum cli
  | some .vnan => .nnum cli
  | some (.vstr s) => if pyStrip s = "" then .nnum cli else .nstr s
  | some (.vnum q) => .nnum q

/-- The fully resolved per-row insolation multiplier of `run_sweep.main`. -/
def resolved_insolation_mult (merged : String → Option PyVal) (cli : ℚ) : ℚ :=
  normalize_insolation_mult (resolved_insolation_raw merged cli)

/-! ### Grid-sell fixing and switch count (run_single_loop.py) -/

/-- `bool(safe_int(override_params.get("enable_sell", 1)))` as recomputed
at the top of `run_single_pv`. -/
def run_enable_sell (params : String → Option PyVal) : Bool :=
  safe_int ((params "enable_sell").getD (.vnum 1)) 0 != 0

/-- The variable fixings applied to `Grid_sell` before `ampl.solve()`:
when selling is disabled every hour's export variable is set to `0.0` and
fixed; otherwise nothing is fixed. -/
def grid_sell_fixes (enable_sell : Bool) (hour_ids : List ℤ) : List (ℤ × ℚ) :=
  if enable_sell then [] else hour_ids.map (fun h => (h, 0))

/-- The external solver's contract for fixed variables: a returned
solution takes the fixed value at every fixed index. -/
def respects_fixes (sol : ℤ → ℚ) (fixes : List (ℤ × ℚ)) : Prop :=
  ∀ p ∈ fixes, sol p.1 = p.2

/-- The aggregator's hourly "Grid Export" column: the `Grid_sell` solution
value at each hour of the dataset. -/
def grid_export_column (sol : ℤ → ℚ) (hour_ids : List ℤ) : List ℚ :=
  hour_ids.map sol

/-- The switch-count threshold `1e-4`. -/
def switchThreshold : ℚ := 1/10000

/-- The charge/discharge switch count of `run_single_pv`: over
`i = 1 .. len-1`, count the hours where `P_ch_vals[i-1] > 1e-4` and
`P_dis_vals[i] > 1e-4`. -/
def switch_count (P_ch_vals P_dis_vals : List ℚ) : ℕ :=
  ((List.range P_ch_vals.length).filter (fun i =>
    decide (0 < i) && decide (switchThreshold < P_ch_vals.getD (i - 1) 0)
      && decide (switchThreshold < P_dis_vals.getD i 0))).length

/-! ### Report accumulator (excel_utils.py)

The workbook is modelled as an association list from sheet name to sheet
content; a sheet holds the list of data frames written to it.  A data
frame has a column list and rows; a row is an association list from
column name to cell value, with a missing cell reading as NaN (null). -/

/-- A data-frame row: column name to cell value. -/
abbrev Row := List (String × PyVal)

/-- Read a cell; a column missing from the row reads as NaN (pandas
null). -/
def Row.get (r : Row) (c : String) : PyVal :=
  (r.lookup c).getD .vnan

/-- A pandas data frame: column order plus rows. -/
structure DF where
  cols : List String
  rows : List Row
deriving DecidableEq, Repr

/-- A worksheet: the data frames written to it, top to bottom. -/
abbrev Sheet := List DF

/-- A workbook: sheet name to sheet. -/
abbrev Workbook := List (String × Sheet)

/-- Write a named sheet: replace it if present (openpyxl
`if_sheet_exists='replace'`), else append it. -/
def setSheet (wb : Workbook) (name : String) (sh : Sheet) : Workbook :=
  if (wb.lookup name).isSome then
    wb.map (fun p => if p.1 = name then (name, sh) else p)
  else
    wb ++ [(name, sh)]

/-- Look a sheet up by name. -/
def getSheet (wb : Workbook) (name : String) : Option Sheet :=
  wb.lookup name

/-- `pd.read_excel(excel_path, sheet_name='Summary')`: the data frame of
the Summary sheet, when that sheet exists. -/
def getSummaryDF (wb : Workbook) : Option DF :=
  match wb.lookup "Summary" with
  | some (df :: _) => some df
  | _ => none

/-- `existing[col] = np.nan` for every listed column not already present:
each new column is appended to the schema and a NaN cell is appended to
every row. -/
def addCols (df : DF) (newCols : List String) : DF :=
  newCols.foldl (fun d c =>
    if c ∈ d.cols then d
    else ⟨d.cols ++ [c], d.rows.map (fun r => r ++ [(c, PyVal.vnan)])⟩) df

/-- Realign a row to a column order (`pd.concat` aligns rows of the
second frame by column name). -/
def alignRow (cols : List String) (r : Row) : Row :=
  cols.map (fun c => (c, Row.get r c))

/-- The Summary update of `write_results_to_excel`: union the column set
between the existing summary and the new scalar frame (missing cells
becoming NaN on both sides) and append the new rows
(`pd.concat([existing, scalar_df], ignore_index=True)`). -/
def unionAppend (existing new : DF) : DF :=
  let e := addCols existing new.cols
  let n := addCols new existing.cols
  ⟨e.cols, e.rows ++ n.rows.map (alignRow e.cols)⟩

/-- `run_sheet = (sheet_name or "Run").strip()[:31]`. -/
def runSheetKey (sheet_name : String) : String :=
  ⟨(pyStrip (if sheet_name = "" then "Run" else sheet_name)).data.take 31⟩

/-- `write_results_to_excel` from `excel_utils.py`, lines 56-87: write
the combined scalar + hourly run sheet (replacing any same-named sheet),
then maintain the Summary sheet by read-union-append-rewrite.  The
first-write "Initial" metadata block and the optional monthly sheet
(`monthly_df=None`) are outside the modelled lines. -/
def write_results_to_excel (wb : Workbook) (sheet_name : String)
    (scalar_df hourly_df : DF) : Workbook :=
  let run_sheet := runSheetKey sheet_name
  let wb1 := setSheet wb run_sheet [scalar_df, hourly_df]
  let summary_df :=
    match getSummaryDF wb1 with
    | some existing => unionAppend existing scalar_df
    | none => scalar_df
  setSheet wb1 "Summary" [summary_df]

/-- One run of one combination reported through
`write_results_to_excel`: the scalar frame is `pd.DataFrame([scalar_data])`,
a single row whose columns are the (unique) keys of the scalar dict. -/
def writeOnce (wb : Workbook) (sheet_name : String) (s : Row) (hourly : DF) : Workbook :=
  write_results_to_excel wb sheet_name ⟨s.map Prod.fst, [s]⟩ hourly

/-! ## Theorems -/

/-! ### Sizing limits: C1, C6 -/

/-- Evaluation lemma for `compute_pv_sizing_limits`: once the selected
module is found, the result is the record of the spec's formulas, with
the limiting factor naming the production bound unless the service bound
is strictly smaller. -/
theorem compute_pv_sizing_limits_spec (df : List HourRow) (pv_table : List PvTableRow)
    (sel : String) (margin : ℚ) (module_row : PvTableRow)
    (hfind : pv_table.find? (fun r => r.PV_types == sel) = some module_row) :
    compute_pv_sizing_limits df pv_table sel margin =
      .ok { selectedModule := sel
            moduleEfficiency := module_row.STC_eff
            annualConsumptionKwh := (df.map (·.consumption)).sum
            peakDemandKw := seriesMax (df.map (·.consumption))
            estimatedServiceCapacityKw :=
              seriesMax (df.map (·.consumption)) * (1 + margin / 100)
            specificYield :=
              (df.map (fun r => r.insolation * module_row.STC_eff / 1000)).sum
            productionCapKwh := 115/100 * (df.map (·.consumption)).sum
            maxSizeByProductionKw :=
              115/100 * (df.map (·.consumption)).sum
                / (df.map (fun r => r.insolation * module_row.STC_eff / 1000)).sum
            maxSizeByServiceKw :=
              90/100 * (seriesMax (df.map (·.consumption)) * (1 + margin / 100))
            finalAllowedKw :=
              min (115/100 * (df.map (·.consumption)).sum
                    / (df.map (fun r => r.insolation * module_row.STC_eff / 1000)).sum)
                  (90/100 * (seriesMax (df.map (·.consumption)) * (1 + margin / 100)))
            limitingFactor :=
              if 90/100 * (seriesMax (df.map (·.consumption)) * (1 + margin / 100))
                  < 115/100 * (df.map (·.consumption)).sum
                      / (df.map (fun r => r.insolation * module_row.STC_eff / 1000)).sum
              then "service capacity (90%)"
              else "production limit (115%)" } := by
  have key : ∀ P S : ℚ,
      (if (min P S == P) = true then "production limit (115%)"
       else "service capacity (90%)")
        = if S < P then "service capacity (90%)" else "production limit (115%)" := by
    intro P S
    by_cases h : S < P
    · rw [if_pos h, if_neg]
      rw [min_eq_right h.le, beq_iff_eq]
      exact ne_of_lt h
    · rw [if_neg h, if_pos]
      rw [min_eq_left (not_lt.mp h)]
      exact beq_self_eq_true P
  unfold compute_pv_sizing_limits
  rw [hfind]
  dsimp only
  rw [key]


/-- The spec's sizing scenario data: 2000 hours of 5 kW consumption
(total 10,000 kWh, peak 5 kW), with all irradiance concentrated in the
first hour so that the specific yield is 1500 kWh/kW/yr at the table's
module efficiency. -/
def scenarioHours : List HourRow :=
  ⟨5, 1500⟩ :: List.replicate 1999 ⟨5, 0⟩

/-- A one-module PV table for the sizing scenario. -/
def scenarioPvTable : List PvTableRow :=
  [⟨"Mono Si PERC", 1000⟩]

theorem scenario_consumption_sum :
    (scenarioHours.map (·.consumption)).sum = 10000 := by
  unfold scenarioHours
  rw [List.map_cons, List.map_replicate, List.sum_cons, List.sum_replicate]
  norm_num

theorem scenario_yield :
    (scenarioHours.map (fun r => r.insolation * (1000 : ℚ) / 1000)).sum = 1500 := by
  unfold scenarioHours
  rw [List.map_cons, List.map_replicate, List.sum_cons, List.sum_replicate]
  norm_num

theorem foldl_max_const (n : ℕ) (a : ℚ) : (List.replicate n a).foldl max a = a := by
  induction n with
  | zero => rfl
  | succ n ih => rw [List.replicate_succ, List.foldl_cons, max_self]; exact ih

theorem scenario_peak : seriesMax (scenarioHours.map (·.consumption)) = 5 := by
  unfold scenarioHours
  rw [List.map_cons, List.map_replicate]
  show (List.replicate 1999 (5 : ℚ)).foldl max 5 = 5
  exact foldl_max_const 1999 5

set_option maxRecDepth 100000 in
/-- C1: `compute_pv_sizing_limits` returns the production cap
`1.15 × Σ consumption`, the specific yield `Σ irradiance·eff/1000`, the
production-bound size `cap / yield`, the service capacity
`peak · (1 + margin/100)`, the service-bound size `0.90 ·` that, the
final size as the min of the two bounds, and a limiting factor naming
the production bound unless the service bound is strictly smaller
(production on exact ties); for annual consumption 10,000 kWh, specific
yield 1,500, peak 5 kW and margin 10 percent the final size is 4.95 kW,
limited by the service capacity. -/
theorem C1_pv_sizing_limits :
    (∀ (df : List HourRow) (pv_table : List PvTableRow) (sel : String)
        (margin : ℚ) (module_row : PvTableRow),
      pv_table.find? (fun r => r.PV_types == sel) = some module_row →
      compute_pv_sizing_limits df pv_table sel margin =
        .ok { selectedModule := sel
              moduleEfficiency := module_row.STC_eff
              annualConsumptionKwh := (df.map (·.consumption)).sum
              peakDemandKw := seriesMax (df.map (·.consumption))
              estimatedServiceCapacityKw :=
                seriesMax (df.map (·.consumption)) * (1 + margin / 100)
              specificYield :=
                (df.map (fun r => r.insolation * module_row.STC_eff / 1000)).sum
              productionCapKwh := 115/100 * (df.map (·.consumption)).sum
              maxSizeByProductionKw :=
                115/100 * (df.map (·.consumption)).sum
                  / (df.map (fun r => r.insolation * module_row.STC_eff / 1000)).sum
              maxSizeByServiceKw :=
                90/100 * (seriesMax (df.map (·.consumption)) * (1 + margin / 100))
              finalAllowedKw :=
                min (115/100 * (df.map (·.consumption)).sum
                      / (df.map (fun r => r.insolation * module_row.STC_eff / 1000)).sum)
                    (90/100 * (seriesMax (df.map (·.consumption)) * (1 + margin / 100)))
              limitingFactor :=
                if 90/100 * (seriesMax (df.map (·.consumption)) * (1 + margin / 100))
                    < 115/100 * (df.map (·.consumption)).sum
                        / (df.map (fun r => r.insolation * module_row.STC_eff / 1000)).sum
                then "service capacity (90%)"
                else "production limit (115%)" })
    ∧ (∀ res : SizingResult,
        compute_pv_sizing_limits scenarioHours scenarioPvTable "Mono Si PERC" 10
          = .ok res →
        res.finalAllowedKw = 99/20 ∧ res.limitingFactor = "service capacity (90%)") := by
  refine ⟨compute_pv_sizing_limits_spec, ?_⟩
  intro res hres
  have hfind : scenarioPvTable.find? (fun r => r.PV_types == "Mono Si PERC")
      = some ⟨"Mono Si PERC", 1000⟩ := by with_unfolding_all decide
  have heval := compute_pv_sizing_limits_spec scenarioHours scenarioPvTable
    "Mono Si PERC" 10 ⟨"Mono Si PERC", 1000⟩ hfind
  rw [heval] at hres
  have hres' : res = _ := ((Except.ok.injEq _ _).mp hres).symm
  subst hres'
  constructor
  · show min (115/100 * (scenarioHours.map (·.consumption)).sum
        / (scenarioHours.map (fun r => r.insolation * (1000:ℚ) / 1000)).sum)
      (90/100 * (seriesMax (scenarioHours.map (·.consumption)) * (1 + 10 / 100))) = 99/20
    rw [scenario_consumption_sum, scenario_yield, scenario_peak]
    rw [min_eq_right (by norm_num)]
    norm_num
  · show (if 90/100 * (seriesMax (scenarioHours.map (·.consumption)) * (1 + 10 / 100))
        < 115/100 * (scenarioHours.map (·.consumption)).sum
          / (scenarioHours.map (fun r => r.insolation * (1000:ℚ) / 1000)).sum
      then "service capacity (90%)" else "production limit (115%)") = "service capacity (90%)"
    rw [scenario_consumption_sum, scenario_yield, scenario_peak]
    rw [if_pos (by norm_num)]

set_option maxRecDepth 100000 in
/-- Witness for C1: the scenario inputs satisfy the module-lookup
hypothesis, and the computed limit is 4.95 kW with the service capacity
as the limiting factor. -/
theorem C1_pv_sizing_limits_witness :
    scenarioPvTable.find? (fun r => r.PV_types == "Mono Si PERC")
        = some ⟨"Mono Si PERC", 1000⟩
    ∧ ∃ res : SizingResult,
        compute_pv_sizing_limits scenarioHours scenarioPvTable "Mono Si PERC" 10
            = .ok res
        ∧ res.finalAllowedKw = 99/20
        ∧ res.limitingFactor = "service capacity (90%)" := by
  have hfind : scenarioPvTable.find? (fun r => r.PV_types == "Mono Si PERC")
      = some ⟨"Mono Si PERC", 1000⟩ := by with_unfolding_all decide
  have hok := C1_pv_sizing_limits.1 scenarioHours scenarioPvTable "Mono Si PERC" 10
    ⟨"Mono Si PERC", 1000⟩ hfind
  exact ⟨hfind, _, hok, C1_pv_sizing_limits.2 _ hok⟩

set_option maxRecDepth 100000 in
/-- C6 (against the claim): on an input whose summed specific yield is
zero, `compute_pv_sizing_limits` does NOT reject with an error — it
returns a result record (the source has no guard, and the numpy float
division involved yields a non-finite value rather than raising). -/
theorem C6_zero_yield_not_rejected :
    exceptIsError
        (compute_pv_sizing_limits [⟨1, 0⟩] [⟨"Mono Si PERC", 1⟩] "Mono Si PERC" 10)
      = false
    ∧ ∃ res : SizingResult,
        compute_pv_sizing_limits [⟨1, 0⟩] [⟨"Mono Si PERC", 1⟩] "Mono Si PERC" 10
            = .ok res
        ∧ res.specificYield = 0 := by
  refine ⟨by with_unfolding_all rfl,
    ⟨"Mono Si PERC", 1, 1, 1, 11/10, 0, 23/20, 0, 99/100, 0, "production limit (115%)"⟩,
    by with_unfolding_all rfl, rfl⟩

/-! ### Cost annualizer: C5, C7 -/

/-- C7: the capital recovery factor at a zero discount rate raises
`ZeroDivisionError` for every lifetime (the denominator
`(1+0)^life - 1` is exactly zero), rather than silently returning a
non-finite value. -/
theorem C7_crf_zero_rate_raises (lifetime : ℕ) :
    calculate_crf 0 lifetime = .error "ZeroDivisionError: float division by zero" := by
  simp [calculate_crf, pyDiv]

/-- Witness for C7 at the project lifetime used by the source (25
years). -/
theorem C7_crf_zero_rate_raises_witness :
    calculate_crf 0 25 = .error "ZeroDivisionError: float division by zero" :=
  C7_crf_zero_rate_raises 25

theorem foldlM_pyDiv_eq_ok (frac base rate : ℚ) :
    ∀ (years : List ℕ) (acc : ℚ),
      (∀ t ∈ years, ((1 : ℚ) + rate) ^ t ≠ 0) →
      (years.foldlM (fun acc t => do
          let d ← pyDiv (frac * base) ((1 + rate) ^ t)
          pure (acc + d)) acc : Except String ℚ)
        = .ok (acc + (years.map (fun t => frac * base / (1 + rate) ^ t)).sum) := by
  intro years
  induction years with
  | nil => intro acc _; simp; rfl
  | cons t ts ih =>
    intro acc h
    have ht : ((1:ℚ)+rate)^t ≠ 0 := h t (List.mem_cons_self t ts)
    rw [List.foldlM_cons]
    have hdiv : pyDiv (frac * base) ((1 + rate) ^ t)
        = Except.ok (frac * base / (1 + rate) ^ t) := by
      unfold pyDiv; rw [if_neg ht]
    rw [hdiv]
    show (ts.foldlM (fun acc t => do
        let d ← pyDiv (frac * base) ((1 + rate) ^ t)
        pure (acc + d)) (acc + frac * base / (1 + rate) ^ t) : Except String ℚ) = _
    rw [ih (acc + frac * base / (1 + rate) ^ t)
        (fun t' ht' => h t' (List.mem_cons_of_mem _ ht'))]
    rw [List.map_cons, List.sum_cons, add_assoc]

theorem npvWithReplacements_eq (base frac rate : ℚ) (years : List ℕ)
    (h : ∀ t ∈ years, ((1:ℚ)+rate)^t ≠ 0) :
    npvWithReplacements base frac rate years
      = .ok (base + (years.map (fun t => frac * base / (1 + rate) ^ t)).sum) := by
  unfold npvWithReplacements
  rw [foldlM_pyDiv_eq_ok frac base rate years 0 h]
  show Except.ok (base + (0 + _)) = _
  rw [zero_add]

theorem replacement_years_eq (L P : ℕ) (hL : 0 < L) :
    calculate_replacement_years L P
      = (List.range P).filter (fun t => decide (0 < t) && decide (L ∣ t)) := by
  unfold calculate_replacement_years pyRangeStep
  apply List.filter_congr
  intro t _
  have hiff : (L ≤ t ∧ (t - L) % L = 0) ↔ (0 < t ∧ L ∣ t) := by
    constructor
    · rintro ⟨h1, h2⟩
      refine ⟨lt_of_lt_of_le hL h1, ?_⟩
      have hd : L ∣ (t - L) := Nat.dvd_of_mod_eq_zero h2
      have ht : t = (t - L) + L := (Nat.sub_add_cancel h1).symm
      rw [ht]; exact Nat.dvd_add hd dvd_rfl
    · rintro ⟨h1, h2⟩
      exact ⟨Nat.le_of_dvd h1 h2, Nat.mod_eq_zero_of_dvd (Nat.dvd_sub' h2 dvd_rfl)⟩
  rw [← Bool.decide_and, ← Bool.decide_and]
  exact decide_eq_decide.mpr hiff

theorem calculate_crf_eq (rate : ℚ) (plife : ℕ) (h : ((1:ℚ)+rate)^plife ≠ 1) :
    calculate_crf rate plife = .ok (rate * (1+rate)^plife / ((1+rate)^plife - 1)) := by
  unfold calculate_crf pyDiv
  rw [if_neg (sub_ne_zero.mpr h)]

/-- C5: the battery replacement years are exactly the positive multiples
of the component lifetime strictly below the project life; the net
present value of each rating is the base cost plus the discounted
scheduled replacements over those years; the annualized energy cost is
`NPV_e · CRF · (1 − incentive) + O&M` while the annualized power cost is
`NPV_p · CRF · (1 − incentive)` with no O&M term; and both returned
figures are rounded to two decimals at the function boundary. -/
theorem C5_annualized_battery_cost (base_e base_p bom r fe fp itc : ℚ)
    (eLife pLife plife : ℕ) (heL : 0 < eLife) (hpL : 0 < pLife)
    (hr : (1 : ℚ) + r ≠ 0) (hpow : ((1 : ℚ) + r) ^ plife ≠ 1) :
    calculate_replacement_years eLife plife
        = (List.range plife).filter (fun t => decide (0 < t) && decide (eLife ∣ t))
    ∧ calculate_replacement_years pLife plife
        = (List.range plife).filter (fun t => decide (0 < t) && decide (pLife ∣ t))
    ∧ annualized_battery_cost base_e base_p bom eLife pLife plife r fe fp itc
        = .ok
          (pyRound2 ((base_e
              + (((List.range plife).filter
                    (fun t => decide (0 < t) && decide (eLife ∣ t))).map
                  (fun t => fe * base_e / (1 + r) ^ t)).sum)
              * (r * (1 + r) ^ plife / ((1 + r) ^ plife - 1)) * (1 - itc) + bom),
           pyRound2 ((base_p
              + (((List.range plife).filter
                    (fun t => decide (0 < t) && decide (pLife ∣ t))).map
                  (fun t => fp * base_p / (1 + r) ^ t)).sum)
              * (r * (1 + r) ^ plife / ((1 + r) ^ plife - 1)) * (1 - itc))) := by
  have hE := replacement_years_eq eLife plife heL
  have hP := replacement_years_eq pLife plife hpL
  refine ⟨hE, hP, ?_⟩
  unfold annualized_battery_cost
  rw [npvWithReplacements_eq _ _ _ _ (fun t _ => pow_ne_zero t hr),
      npvWithReplacements_eq _ _ _ _ (fun t _ => pow_ne_zero t hr),
      calculate_crf_eq r plife hpow, hE, hP]
  rfl

/-- Witness for C5 at a concrete instance: base energy cost 100, base
power cost 200, O&M 5, lifetimes 1 and 2 years, project life 3 years,
discount rate 1, replacement fractions 1/2, incentive 0. -/
theorem C5_annualized_battery_cost_witness :
    ((0:ℕ) < 1) ∧ ((0:ℕ) < 2) ∧ ((1:ℚ) + 1 ≠ 0) ∧ (((1:ℚ) + 1) ^ 3 ≠ 1)
    ∧ (calculate_replacement_years 1 3
          = (List.range 3).filter (fun t => decide (0 < t) && decide (1 ∣ t))
       ∧ calculate_replacement_years 2 3
          = (List.range 3).filter (fun t => decide (0 < t) && decide (2 ∣ t))
       ∧ annualized_battery_cost 100 200 5 1 2 3 1 (1/2) (1/2) 0
          = .ok
            (pyRound2 ((100
                + (((List.range 3).filter
                      (fun t => decide (0 < t) && decide (1 ∣ t))).map
                    (fun t => 1/2 * 100 / (1 + 1) ^ t)).sum)
                * (1 * (1 + 1) ^ 3 / ((1 + 1) ^ 3 - 1)) * (1 - 0) + 5),
             pyRound2 ((200
                + (((List.range 3).filter
                      (fun t => decide (0 < t) && decide (2 ∣ t))).map
                    (fun t => 1/2 * 200 / (1 + 1) ^ t)).sum)
                * (1 * (1 + 1) ^ 3 / ((1 + 1) ^ 3 - 1)) * (1 - 0)))) :=
  ⟨by decide, by decide, by norm_num, by norm_num,
    C5_annualized_battery_cost 100 200 5 1 (1/2) (1/2) 0 1 2 3
      (by decide) (by decide) (by norm_num) (by norm_num)⟩

/-! ### Origin policy: C2 -/

/-- An override set whose domestic and alternate-origin lists share a
name, for both PV and battery. -/
def c2Overrides : OriginOverrides :=
  { use_origin_policy := some (.vnum 1)
    pv_us_list := some "Alpha"
    pv_cn_list := some "Alpha"
    cn_pv_discount_mult := some (1/2)
    bat_us_list := some "Beta"
    bat_cn_list := some "Beta"
    cn_bat_discount_mult_e := some (2/5)
    cn_bat_discount_mult_p := some (3/10) }

set_option maxRecDepth 100000 in
/-- Counterexample to C2: with the origin policy enabled and the type
name in both lists, the source prefers the ALTERNATE-ORIGIN branch (the
`cn` membership test comes first): the discount is applied and the
incentive is zeroed, so the claimed domestic outcome (incentive kept at
the scenario rate, no discount) does not hold. -/
theorem C2_counterexample :
    originEnabled c2Overrides.use_origin_policy = true
    ∧ "Alpha" ∈ parse_list c2Overrides.pv_us_list
    ∧ "Alpha" ∈ parse_list c2Overrides.pv_cn_list
    ∧ "Beta" ∈ parse_list c2Overrides.bat_us_list
    ∧ "Beta" ∈ parse_list c2Overrides.bat_cn_list
    ∧ effective_pv_inputs_by_origin ⟨"Alpha", 100⟩ (3/10) c2Overrides = (50, 0)
    ∧ effective_pv_inputs_by_origin ⟨"Alpha", 100⟩ (3/10) c2Overrides ≠ (100, 3/10)
    ∧ effective_battery_inputs_by_origin ⟨"Beta", 100, 200⟩ (3/10) c2Overrides
        = (40, 60, 0)
    ∧ effective_battery_inputs_by_origin ⟨"Beta", 100, 200⟩ (3/10) c2Overrides
        ≠ (100, 200, 3/10) := by
  with_unfolding_all decide

/-- C2 as amended: with the origin policy enabled, a type name present
in BOTH the domestic and the alternate-origin list resolves to the
alternate-origin branch, which is tested first: the cost discount is
applied (separately for the energy- and power-rated battery cost) and
the incentive is zeroed. -/
theorem C2_amended_alternate_origin_preferred
    (pv_row : PvRow) (bat_row : BatRow) (itc_pv itc_bat : ℚ)
    (ov : OriginOverrides)
    (hon : originEnabled ov.use_origin_policy = true)
    (hpv_us : pv_row.PV_types ∈ parse_list ov.pv_us_list)
    (hpv_cn : pv_row.PV_types ∈ parse_list ov.pv_cn_list)
    (hbat_us : bat_row.BATTERY_TYPES ∈ parse_list ov.bat_us_list)
    (hbat_cn : bat_row.BATTERY_TYPES ∈ parse_list ov.bat_cn_list) :
    effective_pv_inputs_by_origin pv_row itc_pv ov
        = (pv_row.pv_cost * orDefault1 ov.cn_pv_discount_mult, 0)
    ∧ effective_battery_inputs_by_origin bat_row itc_bat ov
        = (bat_row.B_cost_e * orDefault1 ov.cn_bat_discount_mult_e,
           bat_row.B_cost_p * orDefault1 ov.cn_bat_discount_mult_p, 0) := by
  constructor
  · unfold effective_pv_inputs_by_origin
    rw [hon]
    simp only [Bool.not_true, Bool.false_eq_true, if_false, if_pos hpv_cn]
  · unfold effective_battery_inputs_by_origin
    rw [hon]
    simp only [Bool.not_true, Bool.false_eq_true, if_false, if_pos hbat_cn]

set_option maxRecDepth 100000 in
/-- Witness for the amended C2 at the concrete both-lists override set. -/
theorem C2_amended_witness :
    originEnabled c2Overrides.use_origin_policy = true
    ∧ "Alpha" ∈ parse_list c2Overrides.pv_us_list
    ∧ "Alpha" ∈ parse_list c2Overrides.pv_cn_list
    ∧ "Beta" ∈ parse_list c2Overrides.bat_us_list
    ∧ "Beta" ∈ parse_list c2Overrides.bat_cn_list
    ∧ (effective_pv_inputs_by_origin ⟨"Alpha", 100⟩ (3/10) c2Overrides
          = (100 * orDefault1 c2Overrides.cn_pv_discount_mult, 0)
       ∧ effective_battery_inputs_by_origin ⟨"Beta", 100, 200⟩ (3/10) c2Overrides
          = (100 * orDefault1 c2Overrides.cn_bat_discount_mult_e,
             200 * orDefault1 c2Overrides.cn_bat_discount_mult_p, 0)) := by
  refine ⟨by with_unfolding_all decide, by with_unfolding_all decide,
    by with_unfolding_all decide, by with_unfolding_all decide,
    by with_unfolding_all decide, ?_⟩
  exact C2_amended_alternate_origin_preferred ⟨"Alpha", 100⟩ ⟨"Beta", 100, 200⟩
    (3/10) (3/10) c2Overrides
    (by with_unfolding_all decide) (by with_unfolding_all decide)
    (by with_unfolding_all decide) (by with_unfolding_all decide)
    (by with_unfolding_all decide)

/-! ### Parameter precedence: C3 -/

set_option maxRecDepth 100000 in
/-- Counterexample to C3: an explicit NaN in the sweep row does NOT fall
through to the override layer.  `{**override, **sweep}` lets the NaN
shadow the override value, and the per-field handling then substitutes
the field's hard default (0), not the override's value (5 resp. 1). -/
theorem C3_counterexample :
    resolved_offset_price
        (dictMerge [("offset_price", PyVal.vnum 5)] [("offset_price", PyVal.vnan)])
      = PyVal.vnum 0
    ∧ PyVal.vnum 0 ≠ PyVal.vnum 5
    ∧ resolved_enable_sell
        (dictMerge [("enable_sell", PyVal.vnum 1)] [("enable_sell", PyVal.vnan)])
      = 0
    ∧ (0 : ℤ) ≠ 1 := by
  with_unfolding_all decide

/-- C3 as amended: a field set in the sweep row wins over the override
and the defaults, even when the sweep value is falsy-but-defined (0);
a field absent from the sweep row resolves to the override value when
that is present; but an explicit NaN in the sweep row does not fall
through to the override layer — it shadows it, after which the per-field
handling substitutes the hard default (0 for `offset_price`, safe-int
default 0 for `enable_sell`, the command-line multiplier for
`insolation_mult`). -/
theorem C3_amended_precedence :
    (∀ (override sweep : ParamDict) (k : String) (v : PyVal),
      sweep.lookup k = some v → dictMerge override sweep k = some v)
    ∧ (∀ (override sweep : ParamDict) (k : String),
      sweep.lookup k = none → dictMerge override sweep k = override.lookup k)
    ∧ (∀ (override sweep : ParamDict),
      sweep.lookup "enable_sell" = some (PyVal.vnum 0) →
      resolved_enable_sell (dictMerge override sweep) = 0)
    ∧ (∀ (override sweep : ParamDict) (v : PyVal),
      sweep.lookup "offset_price" = none →
      override.lookup "offset_price" = some v → v ≠ PyVal.vnan →
      resolved_offset_price (dictMerge override sweep) = v)
    ∧ (∀ (override sweep : ParamDict),
      sweep.lookup "offset_price" = some PyVal.vnan →
      resolved_offset_price (dictMerge override sweep) = PyVal.vnum 0)
    ∧ (∀ (override sweep : ParamDict),
      sweep.lookup "enable_sell" = some PyVal.vnan →
      resolved_enable_sell (dictMerge override sweep) = 0)
    ∧ (∀ (override sweep : ParamDict) (cli : ℚ),
      sweep.lookup "insolation_mult" = some PyVal.vnan →
      resolved_insolation_mult (dictMerge override sweep) cli
        = normalize_insolation_mult (.nnum cli)) := by
  refine ⟨?_, ?_, ?_, ?_, ?_, ?_, ?_⟩
  · intro override sweep k v h
    unfold dictMerge; rw [h]
  · intro override sweep k h
    unfold dictMerge; rw [h]
  · intro override sweep h
    unfold resolved_enable_sell dictMerge
    rw [h]
    simp [safe_int, pyIntTrunc]
  · intro override sweep v hs ho hv
    unfold resolved_offset_price dictMerge
    rw [hs, ho]
    cases v with
    | vnan => exact absurd rfl hv
    | vnum q => rfl
    | vstr s => rfl
  · intro override sweep h
    unfold resolved_offset_price dictMerge
    rw [h]
  · intro override sweep h
    unfold resolved_enable_sell dictMerge
    rw [h]
    simp [safe_int]
  · intro override sweep cli h
    unfold resolved_insolation_mult resolved_insolation_raw dictMerge
    rw [h]

set_option maxRecDepth 100000 in
/-- Witness for the amended C3: a NaN `enable_sell` in the sweep row
resolves to the hard default 0 even though the override says 1. -/
theorem C3_amended_witness :
    (([("enable_sell", PyVal.vnan)] : ParamDict).lookup "enable_sell"
        = some PyVal.vnan)
    ∧ resolved_enable_sell
        (dictMerge [("enable_sell", PyVal.vnum 1)] [("enable_sell", PyVal.vnan)])
      = 0 := by
  refine ⟨by with_unfolding_all decide, ?_⟩
  exact C3_amended_precedence.2.2.2.2.2.1
    [("enable_sell", PyVal.vnum 1)] [("enable_sell", PyVal.vnan)]
    (by with_unfolding_all decide)

/-! ### Disabled selling pins exports to zero: C4 -/

/-- C4: whenever the `enable_sell` flag resolves to 0, the export
decision variable is fixed to exactly 0 for every hour before the solver
is invoked (the fixes are part of the request), and consequently any
solution respecting those fixes yields an all-zero hourly
"Grid Export" column. -/
theorem C4_disabled_sell_zero_exports
    (params : String → Option PyVal) (hour_ids : List ℤ) (sol : ℤ → ℚ)
    (hsell : resolved_enable_sell params = 0)
    (hsol : respects_fixes sol (grid_sell_fixes (run_enable_sell params) hour_ids)) :
    grid_sell_fixes (run_enable_sell params) hour_ids
        = hour_ids.map (fun h => (h, 0))
    ∧ grid_export_column sol hour_ids = List.replicate hour_ids.length 0 := by
  have hb : run_enable_sell params = false := by
    unfold resolved_enable_sell at hsell
    unfold run_enable_sell
    cases hc : (safe_int ((params "enable_sell").getD (.vnum 1)) 0 != 0) with
    | false => rfl
    | true =>
      rw [if_pos hc] at hsell
      exact absurd hsell one_ne_zero
  have hfix : grid_sell_fixes (run_enable_sell params) hour_ids
      = hour_ids.map (fun h => (h, 0)) := by
    rw [hb]
    unfold grid_sell_fixes
    simp
  refine ⟨hfix, ?_⟩
  rw [hfix] at hsol
  unfold grid_export_column
  refine List.eq_replicate_iff.mpr ⟨List.length_map _ _, ?_⟩
  intro b hbmem
  obtain ⟨h, hh, rfl⟩ := List.mem_map.mp hbmem
  exact hsol (h, 0) (List.mem_map_of_mem _ hh)

set_option maxRecDepth 100000 in
/-- Witness for C4: a sweep row with `enable_sell = 0`, three hours, and
the all-zero solution. -/
theorem C4_disabled_sell_zero_exports_witness :
    resolved_enable_sell (dictMerge [] [("enable_sell", PyVal.vnum 0)]) = 0
    ∧ respects_fixes (fun _ => 0)
        (grid_sell_fixes
          (run_enable_sell (dictMerge [] [("enable_sell", PyVal.vnum 0)]))
          [0, 1, 2])
    ∧ (grid_sell_fixes
          (run_enable_sell (dictMerge [] [("enable_sell", PyVal.vnum 0)]))
          [0, 1, 2]
        = ([0, 1, 2] : List ℤ).map (fun h => (h, 0))
      ∧ grid_export_column (fun _ => 0) [0, 1, 2]
          = List.replicate ([0, 1, 2] : List ℤ).length 0) := by
  have h1 : resolved_enable_sell (dictMerge [] [("enable_sell", PyVal.vnum 0)]) = 0 := by
    with_unfolding_all decide
  have hfl : grid_sell_fixes
      (run_enable_sell (dictMerge [] [("enable_sell", PyVal.vnum 0)]))
      [0, 1, 2] = [((0:ℤ), (0:ℚ)), (1, 0), (2, 0)] := by
    with_unfolding_all decide
  have h2 : respects_fixes (fun _ => 0)
      (grid_sell_fixes
        (run_enable_sell (dictMerge [] [("enable_sell", PyVal.vnum 0)]))
        [0, 1, 2]) := by
    intro p hp
    rw [hfl] at hp
    simp only [List.mem_cons, List.not_mem_nil, or_false] at hp
    rcases hp with rfl | rfl | rfl <;> rfl
  exact ⟨h1, h2,
    C4_disabled_sell_zero_exports (dictMerge [] [("enable_sell", PyVal.vnum 0)])
      [0, 1, 2] (fun _ => 0) h1 h2⟩

/-! ### Switch count: C8 -/

theorem count_range_zip (p : ℚ → ℚ → Bool) :
    ∀ (xs ys : List ℚ),
      ((List.range (min xs.length ys.length)).filter
          (fun j => p (xs.getD j 0) (ys.getD j 0))).length
        = ((xs.zip ys).filter (fun q => p q.1 q.2)).length := by
  intro xs
  induction xs with
  | nil => intro ys; simp
  | cons x xs ih =>
    intro ys
    cases ys with
    | nil => simp
    | cons y ys =>
      rw [List.length_cons, List.length_cons, Nat.succ_min_succ,
          List.range_succ_eq_map, List.filter_cons, List.zip_cons_cons,
          List.filter_cons, List.filter_map]
      simp only [Function.comp_def, List.getD_cons_succ, List.getD_cons_zero]
      cases hp : p x y with
      | false =>
        rw [if_neg Bool.false_ne_true, if_neg Bool.false_ne_true, List.length_map]
        exact ih ys
      | true =>
        rw [if_pos rfl, if_pos rfl, List.length_cons, List.length_cons,
            List.length_map]
        exact congrArg (fun n => n + 1) (ih ys)

theorem getD_drop_one (l : List ℚ) (j : ℕ) : (l.drop 1).getD j 0 = l.getD (j + 1) 0 := by
  cases l <;> simp [List.getD]

theorem switch_count_eq_zip (ch dis : List ℚ) (hlen : ch.length = dis.length) :
    switch_count ch dis
      = ((ch.zip (dis.drop 1)).filter
          (fun q => decide (switchThreshold < q.1) && decide (switchThreshold < q.2))).length := by
  unfold switch_count
  cases hc : ch with
  | nil => simp
  | cons c ctl =>
    rw [← hc]
    have hlen1 : ch.length = ctl.length + 1 := by rw [hc]; rfl
    rw [hlen1, List.range_succ_eq_map, List.filter_cons, List.filter_map]
    have h0 : (decide (0 < 0) && decide (switchThreshold < ch.getD (0 - 1) 0)
        && decide (switchThreshold < dis.getD 0 0)) = false := by
      simp
    rw [h0, if_neg Bool.false_ne_true, List.length_map]
    have hfc : List.filter ((fun i => decide (0 < i)
          && decide (switchThreshold < ch.getD (i - 1) 0)
          && decide (switchThreshold < dis.getD i 0)) ∘ Nat.succ) (List.range ctl.length)
        = List.filter (fun j => decide (switchThreshold < ch.getD j 0)
            && decide (switchThreshold < (dis.drop 1).getD j 0)) (List.range ctl.length) := by
      apply List.filter_congr
      intro j _
      simp [Function.comp, getD_drop_one, Nat.succ_sub_one]
    rw [hfc]
    have hmin : ctl.length = min ch.length (dis.drop 1).length := by
      rw [List.length_drop, ← hlen, hlen1]
      omega
    rw [hmin]
    have hz := count_range_zip
      (fun a b => decide (switchThreshold < a) && decide (switchThreshold < b))
      ch (dis.drop 1)
    simp only [] at hz
    exact hz

set_option maxRecDepth 100000 in
/-- Counterexample to C8's scenario: for `charge = [1, 0, 0, ?]` and
`discharge = [?, 0, ?, 1]` the switch count is 0, not 1 — the hour-2→3
transition cannot count because hour 2's charge is 0 (not above the
threshold), and no choice of the unconstrained entries changes that. -/
theorem C8_counterexample :
    switch_count [1, 0, 0, 0] [0, 0, 0, 1] = 0
    ∧ switch_count [1, 0, 0, 0] [0, 0, 0, 1] ≠ 1 := by
  with_unfolding_all decide

set_option maxRecDepth 100000 in
/-- C8 as amended: the switch count equals the number of
consecutive-hour transitions in which the charge at hour h−1 and the
discharge at hour h both exceed the threshold `1e-4`; in particular
`charge = [1, 0, 1, ?]`, `discharge = [?, 0, ?, 1]` yields exactly one
switch (the hour-2→3 transition; hour 0→1 does not count because hour
1's discharge is 0). -/
theorem C8_switch_count :
    (∀ (ch dis : List ℚ), ch.length = dis.length →
      switch_count ch dis
        = ((ch.zip (dis.drop 1)).filter
            (fun q => decide (switchThreshold < q.1)
              && decide (switchThreshold < q.2))).length)
    ∧ switch_count [1, 0, 1, 0] [0, 0, 0, 1] = 1 := by
  exact ⟨switch_count_eq_zip, by with_unfolding_all decide⟩

set_option maxRecDepth 100000 in
/-- Witness for the amended C8 at the scenario lists. -/
theorem C8_switch_count_witness :
    (([1, 0, 1, 0] : List ℚ).length = ([0, 0, 0, 1] : List ℚ).length)
    ∧ switch_count [1, 0, 1, 0] [0, 0, 0, 1]
        = ((([1, 0, 1, 0] : List ℚ).zip (([0, 0, 0, 1] : List ℚ).drop 1)).filter
            (fun q => decide (switchThreshold < q.1)
              && decide (switchThreshold < q.2))).length :=
  ⟨by decide, C8_switch_count.1 [1, 0, 1, 0] [0, 0, 0, 1] (by decide)⟩

/-! ### Insolation-multiplier normalization: C10 -/

set_option maxRecDepth 1000000 in
/-- C10: the insolation-multiplier normalization keeps a numeric value in
[−2, 2] as the multiplier itself (so a negative in-range input yields a
negative multiplier), reads any other numeric value as a percent delta
`1 + v/100`, reads a string ending in `%` as a percentage, and maps
`None`, blank, and non-coercible inputs to 1; in particular 5 yields
1.05 and 1.05 yields 1.05. -/
theorem C10_normalize_insolation_mult :
    (∀ q : ℚ, -2 ≤ q → q ≤ 2 → normalize_insolation_mult (.nnum q) = q)
    ∧ (∀ q : ℚ, ¬(-2 ≤ q ∧ q ≤ 2) →
        normalize_insolation_mult (.nnum q) = 1 + q / 100)
    ∧ (∀ x : String, pyStrip x ≠ "" → (pyStrip x).data.getLast? = some '%' →
        normalize_insolation_mult (.nstr x)
          = match parseFloat? ⟨(pyStrip x).data.dropLast⟩ with
            | some pct => 1 + pct / 100
            | none => 1)
    ∧ (∀ x : String, pyStrip x ≠ "" → (pyStrip x).data.getLast? ≠ some '%' →
        parseFloat? (pyStrip x) = none → normalize_insolation_mult (.nstr x) = 1)
    ∧ normalize_insolation_mult .nnone = 1
    ∧ normalize_insolation_mult (.nstr "") = 1
    ∧ normalize_insolation_mult (.nstr "   ") = 1
    ∧ normalize_insolation_mult (.nstr "abc") = 1
    ∧ normalize_insolation_mult (.nnum 5) = 105/100
    ∧ normalize_insolation_mult (.nnum (105/100)) = 105/100
    ∧ normalize_insolation_mult (.nnum (-(3/2))) = -(3/2)
    ∧ normalize_insolation_mult (.nstr "5%") = 105/100 := by
  refine ⟨?_, ?_, ?_, ?_, rfl, by with_unfolding_all decide,
    by with_unfolding_all decide, by with_unfolding_all decide,
    by with_unfolding_all decide, by with_unfolding_all decide,
    by with_unfolding_all decide, by with_unfolding_all decide⟩
  · intro q h1 h2
    unfold normalize_insolation_mult
    dsimp only
    rw [if_pos (And.intro h1 h2)]
  · intro q h
    unfold normalize_insolation_mult
    dsimp only
    rw [if_neg h]
  · intro x hne hp
    unfold normalize_insolation_mult
    dsimp only
    rw [if_neg hne, if_pos hp]
  · intro x hne hpc hpf
    unfold normalize_insolation_mult
    dsimp only
    rw [if_neg hne, if_neg hpc, hpf]

set_option maxRecDepth 1000000 in
/-- Witness for C10: the in-range multiplier 1 and the percent string
"5%". -/
theorem C10_normalize_insolation_mult_witness :
    (-2 ≤ (1:ℚ)) ∧ ((1:ℚ) ≤ 2) ∧ normalize_insolation_mult (.nnum 1) = 1
    ∧ pyStrip "5%" ≠ "" ∧ (pyStrip "5%").data.getLast? = some '%'
    ∧ normalize_insolation_mult (.nstr "5%")
        = match parseFloat? ⟨(pyStrip "5%").data.dropLast⟩ with
          | some pct => 1 + pct / 100
          | none => 1 := by
  refine ⟨by norm_num, by norm_num,
    C10_normalize_insolation_mult.1 1 (by norm_num) (by norm_num),
    by with_unfolding_all decide, by with_unfolding_all decide,
    C10_normalize_insolation_mult.2.2.1 "5%"
      (by with_unfolding_all decide) (by with_unfolding_all decide)⟩

/-! ### Report accumulator: C9 -/

theorem lookup_map_replace_self (n : String) (sh : Sheet) :
    ∀ (t : Workbook), (List.lookup n t).isSome →
      List.lookup n (t.map (fun p => if p.1 = n then (n, sh) else p)) = some sh := by
  intro t
  induction t with
  | nil => intro h; simp [List.lookup] at h
  | cons p tl ih =>
    obtain ⟨k, v⟩ := p
    intro h
    by_cases hp : k = n
    · subst hp
      simp only [List.map_cons, if_pos rfl]
      rw [List.lookup_cons]
      simp
    · have hbe : (n == k) = false := by
        simp [Ne.symm hp]
      rw [List.lookup_cons, hbe] at h
      simp only [List.map_cons, if_neg hp]
      rw [List.lookup_cons, hbe]
      exact ih h

theorem lookup_map_replace_ne (n m : String) (sh : Sheet) (h : m ≠ n) :
    ∀ (t : Workbook),
      List.lookup m (t.map (fun p => if p.1 = n then (n, sh) else p))
        = List.lookup m t := by
  intro t
  induction t with
  | nil => rfl
  | cons p tl ih =>
    obtain ⟨k, v⟩ := p
    by_cases hp : k = n
    · subst hp
      have hbe : (m == k) = false := by simp [h]
      simp [List.lookup_cons, hbe, ih]
    · simp only [List.map_cons, if_neg hp]
      rw [List.lookup_cons, List.lookup_cons]
      cases hmb : (m == k) with
      | true => rfl
      | false => exact ih

theorem lookup_append_right_of_none (m : String) (x : String × Sheet) :
    ∀ (t : Workbook), List.lookup m t = none →
      List.lookup m (t ++ [x]) = List.lookup m [x] := by
  intro t
  induction t with
  | nil => intro _; rfl
  | cons p tl ih =>
    obtain ⟨k, v⟩ := p
    intro h
    rw [List.lookup_cons] at h
    rw [List.cons_append, List.lookup_cons]
    cases hmb : (m == k) with
    | true => rw [hmb] at h; simp at h
    | false => rw [hmb] at h; exact ih h

theorem lookup_setSheet_self (wb : Workbook) (n : String) (sh : Sheet) :
    (setSheet wb n sh).lookup n = some sh := by
  unfold setSheet
  by_cases h : (List.lookup n wb).isSome
  · rw [if_pos h]
    exact lookup_map_replace_self n sh wb h
  · rw [if_neg h]
    have hn : List.lookup n wb = none := by
      cases hl : List.lookup n wb with
      | none => rfl
      | some v => rw [hl] at h; simp at h
    rw [lookup_append_right_of_none n (n, sh) wb hn]
    rw [List.lookup_cons]
    simp

theorem lookup_setSheet_ne (wb : Workbook) (n m : String) (sh : Sheet) (h : m ≠ n) :
    (setSheet wb n sh).lookup m = wb.lookup m := by
  unfold setSheet
  by_cases hs : (List.lookup n wb).isSome
  · rw [if_pos hs]
    exact lookup_map_replace_ne n m sh h wb
  · rw [if_neg hs]
    cases hl : List.lookup m wb with
    | some v =>
      -- lookup in append finds it on the left
      clear hs
      induction wb with
      | nil => simp [List.lookup] at hl
      | cons p tl ih =>
        obtain ⟨k, v2⟩ := p
        rw [List.cons_append, List.lookup_cons]
        rw [List.lookup_cons] at hl
        cases hmb : (m == k) with
        | true => rw [hmb] at hl; exact hl
        | false => rw [hmb] at hl; exact ih hl
    | none =>
      rw [lookup_append_right_of_none m (n, sh) wb hl]
      rw [List.lookup_cons]
      have hbe : (m == n) = false := by simp [h]
      rw [hbe]
      rfl






theorem Row.get_append_nan (r fills : Row) (c : String)
    (hf : ∀ p ∈ fills, p.2 = PyVal.vnan) :
    Row.get (r ++ fills) c = Row.get r c := by
  induction r with
  | nil =>
    simp only [List.nil_append]
    unfold Row.get
    induction fills with
    | nil => rfl
    | cons p t ih =>
      obtain ⟨k, v⟩ := p
      have hv : v = PyVal.vnan := hf (k, v) (List.mem_cons_self _ _)
      rw [List.lookup_cons]
      cases hmb : (c == k) with
      | true => simp [hv, List.lookup]
      | false => exact ih (fun p hp => hf p (List.mem_cons_of_mem _ hp))
  | cons p t ih =>
    obtain ⟨k, v⟩ := p
    unfold Row.get at ih ⊢
    rw [List.cons_append, List.lookup_cons, List.lookup_cons]
    cases hmb : (c == k) with
    | true => rfl
    | false => exact ih

theorem addCols_spec (cs : List String) :
    ∀ (df : DF), ∃ fcols : List String,
      (addCols df cs).cols = df.cols ++ fcols
      ∧ (addCols df cs).rows
          = df.rows.map (fun r => r ++ fcols.map (fun c => (c, PyVal.vnan))) := by
  induction cs with
  | nil =>
    intro df
    exact ⟨[], by simp [addCols]⟩
  | cons c cs ih =>
    intro df
    unfold addCols
    rw [List.foldl_cons]
    by_cases hc : c ∈ df.cols
    · rw [if_pos hc]
      exact ih df
    · rw [if_neg hc]
      obtain ⟨fcols, h1, h2⟩ := ih ⟨df.cols ++ [c], df.rows.map (fun r => r ++ [(c, PyVal.vnan)])⟩
      refine ⟨c :: fcols, ?_, ?_⟩
      · show (addCols ⟨df.cols ++ [c], df.rows.map (fun r => r ++ [(c, PyVal.vnan)])⟩ cs).cols
            = df.cols ++ c :: fcols
        rw [h1]
        simp
      · show (addCols ⟨df.cols ++ [c], df.rows.map (fun r => r ++ [(c, PyVal.vnan)])⟩ cs).rows
            = df.rows.map (fun r => r ++ (c :: fcols).map (fun c => (c, PyVal.vnan)))
        rw [h2]
        rw [List.map_map]
        apply List.map_congr_left
        intro r _
        simp [List.append_assoc]



theorem addCols_mem_cols (cs : List String) :
    ∀ (df : DF) (c : String), c ∈ (addCols df cs).cols ↔ c ∈ df.cols ∨ c ∈ cs := by
  induction cs with
  | nil => intro df c; simp [addCols]
  | cons c0 cs ih =>
    intro df c
    unfold addCols
    rw [List.foldl_cons]
    by_cases hc : c0 ∈ df.cols
    · rw [if_pos hc]
      show c ∈ (addCols df cs).cols ↔ _
      rw [ih df c]
      constructor
      · rintro (h | h)
        · exact Or.inl h
        · exact Or.inr (List.mem_cons_of_mem _ h)
      · rintro (h | h)
        · exact Or.inl h
        · rcases List.mem_cons.mp h with h | h
          · exact Or.inl (h ▸ hc)
          · exact Or.inr h
    · rw [if_neg hc]
      show c ∈ (addCols ⟨df.cols ++ [c0], df.rows.map (fun r => r ++ [(c0, PyVal.vnan)])⟩ cs).cols ↔ _
      rw [ih _ c]
      simp only [List.mem_append, List.mem_cons, List.not_mem_nil, or_false]
      tauto

theorem addCols_eq_self (cs : List String) :
    ∀ (df : DF), (∀ c ∈ cs, c ∈ df.cols) → addCols df cs = df := by
  induction cs with
  | nil => intro df _; rfl
  | cons c0 cs ih =>
    intro df h
    unfold addCols
    rw [List.foldl_cons, if_pos (h c0 (List.mem_cons_self _ _))]
    exact ih df (fun c hc => h c (List.mem_cons_of_mem _ hc))

theorem get_alignRow (cols : List String) (r : Row) (c : String) :
    Row.get (alignRow cols r) c = if c ∈ cols then Row.get r c else PyVal.vnan := by
  induction cols with
  | nil => simp [alignRow, Row.get, List.lookup]
  | cons c0 cols ih =>
    unfold alignRow at ih ⊢
    rw [List.map_cons]
    by_cases hc : c = c0
    · subst hc
      unfold Row.get
      rw [List.lookup_cons]
      simp
    · have hbe : (c == c0) = false := by simp [hc]
      unfold Row.get at ih ⊢
      rw [List.lookup_cons, hbe]
      rw [ih]
      by_cases hm : c ∈ cols
      · rw [if_pos hm, if_pos (List.mem_cons_of_mem _ hm)]
      · rw [if_neg hm, if_neg (by simp [List.mem_cons, hc, hm])]

theorem get_eq_nan_of_not_mem_keys (r : Row) (c : String)
    (h : c ∉ r.map Prod.fst) : Row.get r c = PyVal.vnan := by
  induction r with
  | nil => rfl
  | cons p t ih =>
    obtain ⟨k, v⟩ := p
    simp only [List.map_cons, List.mem_cons, not_or] at h
    unfold Row.get at ih ⊢
    rw [List.lookup_cons, show (c == k) = false by simp [h.1]]
    exact ih h.2

theorem alignRow_self (r : Row) (hnd : (r.map Prod.fst).Nodup) :
    alignRow (r.map Prod.fst) r = r := by
  induction r with
  | nil => rfl
  | cons p t ih =>
    obtain ⟨k, v⟩ := p
    simp only [List.map_cons] at hnd ⊢
    obtain ⟨hk, hnd2⟩ := List.nodup_cons.mp hnd
    unfold alignRow
    rw [List.map_cons]
    have hhead : Row.get ((k, v) :: t) k = v := by
      unfold Row.get
      rw [List.lookup_cons]
      simp
    rw [hhead]
    have htail : (t.map Prod.fst).map (fun c => (c, Row.get ((k, v) :: t) c))
        = (t.map Prod.fst).map (fun c => (c, Row.get t c)) := by
      apply List.map_congr_left
      intro c hcm
      have hck : c ≠ k := fun he => hk (he ▸ hcm)
      unfold Row.get
      rw [List.lookup_cons, show (c == k) = false by simp [hck]]
    rw [htail]
    exact congrArg (fun l => (k, v) :: l) (ih hnd2)

theorem alignRow_append_nan (cols : List String) (r fills : Row)
    (hf : ∀ p ∈ fills, p.2 = PyVal.vnan) :
    alignRow cols (r ++ fills) = alignRow cols r := by
  unfold alignRow
  exact List.map_congr_left (fun c _ => by rw [Row.get_append_nan r fills c hf])

theorem unionAppend_single (ex : DF) (s : Row) :
    ∃ fcols : List String,
      (unionAppend ex ⟨s.map Prod.fst, [s]⟩).cols = ex.cols ++ fcols
      ∧ (unionAppend ex ⟨s.map Prod.fst, [s]⟩).rows
          = ex.rows.map (fun r => r ++ fcols.map (fun c => (c, PyVal.vnan)))
            ++ [alignRow (ex.cols ++ fcols) s] := by
  obtain ⟨fcols, h1, h2⟩ := addCols_spec (s.map Prod.fst) ex
  obtain ⟨gcols, g1, g2⟩ := addCols_spec ex.cols ⟨s.map Prod.fst, [s]⟩
  refine ⟨fcols, ?_, ?_⟩
  · show (addCols ex (s.map Prod.fst)).cols = ex.cols ++ fcols
    exact h1
  · show (addCols ex (s.map Prod.fst)).rows
        ++ (addCols ⟨s.map Prod.fst, [s]⟩ ex.cols).rows.map
            (alignRow (addCols ex (s.map Prod.fst)).cols)
      = _
    rw [h1, h2, g2]
    simp only [List.map_cons, List.map_nil]
    have hfill : ∀ p ∈ gcols.map (fun c => (c, PyVal.vnan)), p.2 = PyVal.vnan := by
      intro p hp
      obtain ⟨c, _, rfl⟩ := List.mem_map.mp hp
      rfl
    rw [alignRow_append_nan (ex.cols ++ fcols) s _ hfill]






theorem getSummaryDF_setSheet_ne (wb : Workbook) (n : String) (sh : Sheet)
    (h : n ≠ "Summary") :
    getSummaryDF (setSheet wb n sh) = getSummaryDF wb := by
  unfold getSummaryDF
  rw [lookup_setSheet_ne wb n "Summary" sh (Ne.symm h)]

theorem getSummaryDF_setSheet_self (wb : Workbook) (df : DF) :
    getSummaryDF (setSheet wb "Summary" [df]) = some df := by
  unfold getSummaryDF
  rw [lookup_setSheet_self]

theorem write_results_spec (wb : Workbook) (sheet_name : String)
    (scalar hourly : DF) (hrn : runSheetKey sheet_name ≠ "Summary") :
    getSummaryDF (write_results_to_excel wb sheet_name scalar hourly)
      = some (match getSummaryDF wb with
              | some existing => unionAppend existing scalar
              | none => scalar)
    ∧ getSheet (write_results_to_excel wb sheet_name scalar hourly)
        (runSheetKey sheet_name)
      = some [scalar, hourly] := by
  unfold write_results_to_excel
  constructor
  · rw [getSummaryDF_setSheet_self]
    rw [getSummaryDF_setSheet_ne wb (runSheetKey sheet_name) [scalar, hourly] hrn]
  · unfold getSheet
    rw [lookup_setSheet_ne _ _ _ _ hrn, lookup_setSheet_self]

theorem unionAppend_rows (E : DF) (s : Row)
    (hsub : ∀ c ∈ s.map Prod.fst, c ∈ E.cols) :
    (unionAppend E ⟨s.map Prod.fst, [s]⟩).rows = E.rows ++ [alignRow E.cols s]
    ∧ (unionAppend E ⟨s.map Prod.fst, [s]⟩).cols = E.cols := by
  have he : addCols E (⟨s.map Prod.fst, [s]⟩ : DF).cols = E :=
    addCols_eq_self _ _ hsub
  obtain ⟨gcols, hg1, hg2⟩ := addCols_spec E.cols ⟨s.map Prod.fst, [s]⟩
  constructor
  · show (addCols E (s.map Prod.fst)).rows
        ++ (addCols ⟨s.map Prod.fst, [s]⟩ E.cols).rows.map
            (alignRow (addCols E (s.map Prod.fst)).cols)
      = E.rows ++ [alignRow E.cols s]
    rw [show addCols E (s.map Prod.fst) = E from he, hg2]
    simp only [List.map_cons, List.map_nil]
    have hfill : ∀ p ∈ gcols.map (fun c => (c, PyVal.vnan)), p.2 = PyVal.vnan := by
      intro p hp
      obtain ⟨c, _, rfl⟩ := List.mem_map.mp hp
      rfl
    rw [alignRow_append_nan E.cols s _ hfill]
  · show (addCols E (s.map Prod.fst)).cols = E.cols
    rw [show addCols E (s.map Prod.fst) = E from he]

/-- C9: re-running the exact same combination against an unmodified
workbook is idempotent for the reported row set — the run's own sheet is
replaced (content identical, row count unchanged) and the Summary
sheet's row set is unchanged by the duplicate append — while each run
grows the Summary sheet by exactly one row, with the column set unioned
between existing and new rows and missing cells reading as null on both
sides. -/
theorem C9_summary_accumulation (wb : Workbook) (sheet_name : String)
    (s : Row) (hourly : DF)
    (hnd : (s.map Prod.fst).Nodup)
    (hrn : runSheetKey sheet_name ≠ "Summary") :
    (getSheet (writeOnce (writeOnce wb sheet_name s hourly) sheet_name s hourly)
        (runSheetKey sheet_name)
      = getSheet (writeOnce wb sheet_name s hourly) (runSheetKey sheet_name)
     ∧ getSheet (writeOnce wb sheet_name s hourly) (runSheetKey sheet_name)
      = some [⟨s.map Prod.fst, [s]⟩, hourly])
    ∧ (∀ S1 S2 : DF,
        getSummaryDF (writeOnce wb sheet_name s hourly) = some S1 →
        getSummaryDF (writeOnce (writeOnce wb sheet_name s hourly) sheet_name s hourly)
          = some S2 →
        ∀ r : Row, r ∈ S2.rows ↔ r ∈ S1.rows)
    ∧ (∀ ex S1 : DF,
        getSummaryDF wb = some ex →
        getSummaryDF (writeOnce wb sheet_name s hourly) = some S1 →
        S1.rows.length = ex.rows.length + 1
        ∧ (∀ c : String, c ∈ S1.cols ↔ c ∈ ex.cols ∨ c ∈ s.map Prod.fst)
        ∧ ∃ (extend : Row → Row) (newRow : Row),
            S1.rows = ex.rows.map extend ++ [newRow]
            ∧ (∀ (r : Row) (c : String), Row.get (extend r) c = Row.get r c)
            ∧ (∀ c : String, Row.get newRow c = Row.get s c)) := by
  obtain ⟨hsum1, hrs1⟩ := write_results_spec wb sheet_name ⟨s.map Prod.fst, [s]⟩ hourly hrn
  obtain ⟨hsum2, hrs2⟩ := write_results_spec (writeOnce wb sheet_name s hourly)
    sheet_name ⟨s.map Prod.fst, [s]⟩ hourly hrn
  rw [show (write_results_to_excel wb sheet_name ⟨s.map Prod.fst, [s]⟩ hourly)
      = writeOnce wb sheet_name s hourly from rfl] at hsum1 hrs1
  rw [show (write_results_to_excel (writeOnce wb sheet_name s hourly) sheet_name
        ⟨s.map Prod.fst, [s]⟩ hourly)
      = writeOnce (writeOnce wb sheet_name s hourly) sheet_name s hourly from rfl]
    at hsum2 hrs2
  refine ⟨⟨by rw [hrs1, hrs2], hrs1⟩, ?_, ?_⟩
  · -- row-set idempotence
    intro S1 S2 h1 h2 r
    have h2p := hsum2.symm.trans h2
    rw [h1] at h2p
    have hS2 : S2 = unionAppend S1 ⟨s.map Prod.fst, [s]⟩ := (Option.some_inj.mp h2p).symm
    subst hS2
    have h1p := hsum1.symm.trans h1
    cases hex : getSummaryDF wb with
    | none =>
      rw [hex] at h1p
      have hS1 : S1 = ⟨s.map Prod.fst, [s]⟩ := (Option.some_inj.mp h1p).symm
      subst hS1
      obtain ⟨hrows, _⟩ := unionAppend_rows ⟨s.map Prod.fst, [s]⟩ s (fun c hc => hc)
      rw [hrows]
      show r ∈ [s] ++ [alignRow (⟨s.map Prod.fst, [s]⟩ : DF).cols s] ↔ r ∈ [s]
      rw [show alignRow (⟨s.map Prod.fst, [s]⟩ : DF).cols s
          = alignRow (s.map Prod.fst) s from rfl]
      rw [alignRow_self s hnd]
      simp
    | some ex =>
      rw [hex] at h1p
      have hS1 : S1 = unionAppend ex ⟨s.map Prod.fst, [s]⟩ := (Option.some_inj.mp h1p).symm
      obtain ⟨fcols, hc1, hr1⟩ := unionAppend_single ex s
      have hsub : ∀ c ∈ s.map Prod.fst, c ∈ S1.cols := by
        intro c hc
        rw [hS1]
        rw [show (unionAppend ex ⟨s.map Prod.fst, [s]⟩).cols
            = (addCols ex (s.map Prod.fst)).cols from rfl]
        exact (addCols_mem_cols (s.map Prod.fst) ex c).mpr (Or.inr hc)
      obtain ⟨hrows2, hcols2⟩ := unionAppend_rows S1 s hsub
      rw [hrows2]
      have hw : alignRow S1.cols s = alignRow (ex.cols ++ fcols) s := by
        rw [hS1, hc1]
      have hwmem : alignRow S1.cols s ∈ S1.rows := by
        rw [hw, hS1, hr1]
        exact List.mem_append_right _ (List.mem_cons_self _ _)
      constructor
      · intro hm
        rcases List.mem_append.mp hm with hm | hm
        · exact hm
        · rw [List.mem_singleton.mp hm]
          exact hwmem
      · exact fun hm => List.mem_append_left _ hm
  · -- strict growth and column union
    intro ex S1 hex h1
    have h1p := hsum1.symm.trans h1
    rw [hex] at h1p
    have hS1 : S1 = unionAppend ex ⟨s.map Prod.fst, [s]⟩ := (Option.some_inj.mp h1p).symm
    subst hS1
    obtain ⟨fcols, hc1, hr1⟩ := unionAppend_single ex s
    refine ⟨?_, ?_, ?_⟩
    · rw [hr1]
      rw [List.length_append, List.length_map]
      rfl
    · intro c
      rw [show (unionAppend ex ⟨s.map Prod.fst, [s]⟩).cols
          = (addCols ex (s.map Prod.fst)).cols from rfl]
      exact addCols_mem_cols (s.map Prod.fst) ex c
    · refine ⟨fun r => r ++ fcols.map (fun c => (c, PyVal.vnan)),
        alignRow (ex.cols ++ fcols) s, hr1, ?_, ?_⟩
      · intro r c
        refine Row.get_append_nan r _ c ?_
        intro p hp
        obtain ⟨c0, _, rfl⟩ := List.mem_map.mp hp
        rfl
      · intro c
        rw [get_alignRow]
        by_cases hm : c ∈ ex.cols ++ fcols
        · rw [if_pos hm]
        · rw [if_neg hm]
          have hnk : c ∉ s.map Prod.fst := by
            intro hk
            apply hm
            have hin := (addCols_mem_cols (s.map Prod.fst) ex c).mpr (Or.inr hk)
            rw [show (addCols ex (s.map Prod.fst)).cols
                = (unionAppend ex ⟨s.map Prod.fst, [s]⟩).cols from rfl, hc1] at hin
            exact hin
          exact (get_eq_nan_of_not_mem_keys s c hnk).symm


set_option maxRecDepth 1000000 in
/-- Witness for C9: an empty workbook, run label "R", a one-column
scalar row, and an empty hourly frame. -/
theorem C9_summary_accumulation_witness :
    (([("A", PyVal.vnum 1)] : Row).map Prod.fst).Nodup
    ∧ runSheetKey "R" ≠ "Summary"
    ∧ ((getSheet (writeOnce (writeOnce [] "R" [("A", PyVal.vnum 1)] ⟨[], []⟩)
          "R" [("A", PyVal.vnum 1)] ⟨[], []⟩) (runSheetKey "R")
        = getSheet (writeOnce [] "R" [("A", PyVal.vnum 1)] ⟨[], []⟩) (runSheetKey "R")
       ∧ getSheet (writeOnce [] "R" [("A", PyVal.vnum 1)] ⟨[], []⟩) (runSheetKey "R")
        = some [⟨([("A", PyVal.vnum 1)] : Row).map Prod.fst, [[("A", PyVal.vnum 1)]]⟩, ⟨[], []⟩])
      ∧ (∀ S1 S2 : DF,
          getSummaryDF (writeOnce [] "R" [("A", PyVal.vnum 1)] ⟨[], []⟩) = some S1 →
          getSummaryDF (writeOnce (writeOnce [] "R" [("A", PyVal.vnum 1)] ⟨[], []⟩)
            "R" [("A", PyVal.vnum 1)] ⟨[], []⟩) = some S2 →
          ∀ r : Row, r ∈ S2.rows ↔ r ∈ S1.rows)
      ∧ (∀ ex S1 : DF,
          getSummaryDF ([] : Workbook) = some ex →
          getSummaryDF (writeOnce [] "R" [("A", PyVal.vnum 1)] ⟨[], []⟩) = some S1 →
          S1.rows.length = ex.rows.length + 1
          ∧ (∀ c : String, c ∈ S1.cols ↔ c ∈ ex.cols
              ∨ c ∈ ([("A", PyVal.vnum 1)] : Row).map Prod.fst)
          ∧ ∃ (extend : Row → Row) (newRow : Row),
              S1.rows = ex.rows.map extend ++ [newRow]
              ∧ (∀ (r : Row) (c : String), Row.get (extend r) c = Row.get r c)
              ∧ (∀ c : String, Row.get newRow c = Row.get [("A", PyVal.vnum 1)] c))) := by
  refine ⟨by with_unfolding_all decide, by with_unfolding_all decide, ?_⟩
  exact C9_summary_accumulation [] "R" [("A", PyVal.vnum 1)] ⟨[], []⟩
    (by with_unfolding_all decide) (by with_unfolding_all decide)

end SolarStorage
